import Mathlib

/-!
Verification of the kafkaprototype benchmarking scripts
(`bin/write_kafka.py` and `bin/read_kafka.py`) against their
natural-language specification.

The two scripts are shallowly embedded: Python dicts become association
lists over a `Value` type, the producer and consumer loops become
recursive functions over finite streams, timestamps become rationals,
and network side effects become explicit event traces.  External
collaborators (the `kafkaprototype` metadata module, pydantic,
dataclasses) are modelled from the spec where noted.
-/

namespace KafkaPrototype

/-- A Python value as it appears in a topic field mapping: int, float
(modelled as a rational), str, list, nested dict, or None. -/
inductive Value where
  | vint (n : Int)
  | vfloat (q : ℚ)
  | vstr (s : String)
  | vlist (l : List Value)
  | vmap (m : List (String × Value))
  | vnone

/-- A Python dict with string keys, in insertion order (association list
with unique keys as produced by `Model().dict()`). -/
abbrev Dict := List (String × Value)

/-- `d[k]` lookup: first binding of `k`, if any. -/
def Dict.get : Dict → String → Option Value
  | [], _ => none
  | (k', v') :: rest, k => if k' = k then some v' else Dict.get rest k

/-- `d[k] = v` assignment: replace the binding in place if the key
exists, otherwise append at the end (Python dict semantics). -/
def Dict.set : Dict → String → Value → Dict
  | [], k, v => [(k, v)]
  | (k', v') :: rest, k, v =>
    if k' = k then (k, v) :: rest else (k', v') :: Dict.set rest k v

/-! ## write_kafka.py: synthetic-data derivation (lines 68-87)

`main` builds `data_dict` from the pydantic model's defaults, replacing
every value with a canonical non-default one, and raising `RuntimeError`
for unsupported shapes.  `value[0]` on an empty list raises `IndexError`
before any type check. -/

/-- The errors the derivation loop can raise: the two `RuntimeError`s of
lines 78 and 86 (configuration errors per the spec's taxonomy), and the
`IndexError` that `value[0]` raises on an empty list. -/
inductive DerivErr where
  | unexpectedArrayType (name : String)
  | unexpectedScalarType (name : String)
  | indexError
deriving DecidableEq, Repr

/-- Is a derivation error one of the `RuntimeError`s (a configuration
error), as opposed to the `IndexError` from empty-list indexing? -/
def DerivErr.isConfigError : DerivErr → Bool
  | .unexpectedArrayType _ => true
  | .unexpectedScalarType _ => true
  | .indexError => false

/-- One step of the derivation loop body (write_kafka.py lines 72-87):
lists are checked via their first element (`value[0]`, an `IndexError`
when empty), then int/float/str scalars, anything else is a
`RuntimeError`. -/
def deriveValue (name : String) (value : Value) : Except DerivErr Value :=
  match value with
  | .vlist l =>
    match l with
    | [] => .error .indexError
    | x :: _ =>
      match x with
      | .vint _ => .ok (.vlist (l.map (fun _ => .vint 1)))
      | .vfloat _ => .ok (.vlist (l.map (fun _ => .vfloat (11 / 10))))
      | _ => .error (.unexpectedArrayType name)
  | .vint _ => .ok (.vint 1)
  | .vfloat _ => .ok (.vfloat (11 / 10))
  | .vstr _ => .ok (.vstr "a short string")
  | _ => .error (.unexpectedScalarType name)

/-- The full derivation loop over `data_dict.items()` in insertion
order, stopping at the first field whose derivation raises. -/
def deriveDataDict : Dict → Except DerivErr Dict
  | [] => .ok []
  | (name, v) :: rest =>
    match deriveValue name v with
    | .error e => .error e
    | .ok v' =>
      match deriveDataDict rest with
      | .error e => .error e
      | .ok rest' => .ok ((name, v') :: rest')

/-! ## write_kafka.py: per-message stamping and validation (lines 153-176) -/

/-- The six validation strategies of `ValidationType` (lines 21-27). -/
inductive ValidationType where
  | none
  | custom
  | dataclass
  | dataclassAndDecode
  | pydantic
  | pydanticAndDecode
deriving DecidableEq, Repr

/-- The sequence of field writes one loop iteration performs on
`data_dict` before the validation/serialize step (lines 154-157):
`private_seqNum` (loop index + 1), then `private_sndStamp` (current
time), then `private_index` when the component is indexed. -/
def stampWriteList (i : Nat) (t : ℚ) (indexed : Bool) (index : Int) :
    List (String × Value) :=
  [("private_seqNum", Value.vint (i + 1)), ("private_sndStamp", Value.vfloat t)] ++
    (if indexed then [("private_index", Value.vint index)] else [])

/-- `data_dict` after the stamping writes of one iteration. -/
def stampMessage (d : Dict) (i : Nat) (t : ℚ) (indexed : Bool) (index : Int) :
    Dict :=
  (stampWriteList i t indexed index).foldl (fun d p => Dict.set d p.1 p.2) d

/-- The field names written after `private_sndStamp` within one
iteration's stamping, before validation and serialization. -/
def fieldsWrittenAfterSndStamp (i : Nat) (t : ℚ) (indexed : Bool) (index : Int) :
    List String :=
  (((stampWriteList i t indexed index).map Prod.fst).dropWhile
    (fun s => s ≠ "private_sndStamp")).drop 1

/-- Modelled from the spec: a dataclass instance built as
`DataClass(**data_dict)` (the `make_dataclass` product of the external
`kafkaprototype` metadata module) holds exactly the keyword fields it
was constructed from; `vars` reads that field mapping back. -/
structure DataclassObj where
  fields : Dict

/-- Modelled from the spec: a pydantic model instance built as
`Model(**data_dict)` from already-validated synthetic data; `.dict()`
re-derives the same field mapping (the spec's canonicalization pass). -/
structure PydanticObj where
  fields : Dict

/-- `vars(model)` for a dataclass instance. -/
def DataclassObj.varsOf (o : DataclassObj) : Dict := o.fields

/-- `model.dict()` for a pydantic instance. -/
def PydanticObj.dictOf (o : PydanticObj) : Dict := o.fields

/-- The `send_data_dict` produced by the validation dispatch
(lines 158-176) for one stamped `data_dict`.  `none`, `custom`,
`dataclass` and `pydantic` leave `send_data_dict = data_dict` (custom
validation gates without mutating; construct-and-discard discards); the
two `_AND_DECODE` variants re-derive the mapping from the constructed
record (`vars(model)` / `model.dict()`).  Modelled from the spec:
`validate_data` and the record constructors succeed on this run's
synthetic data, which is derived from the topic's own defaults. -/
def sendDataDict (validation : ValidationType) (d : Dict) : Dict :=
  match validation with
  | .none => d
  | .custom => d
  | .dataclass => d
  | .dataclassAndDecode => DataclassObj.varsOf ⟨d⟩
  | .pydantic => d
  | .pydanticAndDecode => PydanticObj.dictOf ⟨d⟩

/-- The publish loop (lines 153-177) over a list of loop indices,
threading the mutable `data_dict` and collecting each iteration's
`send_data_dict` in publish order (`times i` is the `time.time()`
reading of iteration `i`). -/
def runIters (validation : ValidationType) (indexed : Bool) (index : Int)
    (times : Nat → ℚ) : List Nat → Dict → List Dict
  | [], _ => []
  | i :: rest, d =>
    let d1 := stampMessage d i (times i) indexed index
    sendDataDict validation d1 ::
      runIters validation indexed index times rest d1

/-- The messages published by a producer run of `n` iterations
(`for i in range(args.number)`), starting from the derived
`data_dict`. -/
def producerMessages (validation : ValidationType) (indexed : Bool) (index : Int)
    (times : Nat → ℚ) (d : Dict) (n : Nat) : List Dict :=
  runIters validation indexed index times (List.range n) d

/-! ## write_kafka.py: ordering of network effects around derivation -/

/-- The externally visible I/O steps of a producer run, in program
order: the aiohttp session and registry client (lines 89-92), schema
registration (line 94), serializer and producer creation (lines 99-101),
and each publish of the loop. -/
inductive ProducerEvent where
  | httpSession
  | registryApi
  | registerSchema
  | serializerCreated
  | producerCreated
  | publish
deriving DecidableEq, Repr

/-- Outcome of a producer run: the I/O events it performed, and either
the derivation error that aborted it or the list of published
messages. -/
structure ProducerRun where
  events : List ProducerEvent
  result : Except DerivErr (List Dict)

/-- `write_kafka.main` after argument parsing: synthetic-data derivation
(lines 68-87) runs first; only on success does the run open the network
session, register the schema, create the serializer and producer, and
publish `n` messages. -/
def producerMain (defaults : Dict) (validation : ValidationType) (indexed : Bool)
    (index : Int) (times : Nat → ℚ) (n : Nat) : ProducerRun :=
  match deriveDataDict defaults with
  | .error e => { events := [], result := .error e }
  | .ok dataDict =>
    let msgs := producerMessages validation indexed index times dataDict n
    { events :=
        [.httpSession, .registryApi, .registerSchema, .serializerCreated,
          .producerCreated] ++ msgs.map (fun _ => .publish),
      result := .ok msgs }

/-- Is a value an int or a float (the element types the array branch of
the derivation accepts)? -/
def numericValue : Value → Bool
  | .vint _ => true
  | .vfloat _ => true
  | _ => false

/-- A value the spec calls supported for synthetic-data derivation: an
int, float or str scalar, or a list of ints or floats. -/
def supportedValue : Value → Bool
  | .vint _ => true
  | .vfloat _ => true
  | .vstr _ => true
  | .vlist l => l.all numericValue
  | _ => false

/-- A list default as the typed schema produces it: nonempty, and
homogeneous in the sense that a numeric first element means an
all-numeric list.  (Non-list values are unconstrained.)  The derivation
loop inspects only `value[0]`, so this is the domain on which the
source's check and the spec's "list of ints or floats" agree. -/
def tameListValue : Value → Bool
  | .vlist [] => false
  | .vlist (x :: xs) => !numericValue x || (x :: xs).all numericValue
  | _ => true

/-! ## write_kafka.py: the two write bridges (lines 106-148) -/

/-- What the broker's delivery callback reports for one produced
message: success, or a `KafkaError` (carried here as a string). -/
inductive DeliveryReport where
  | success
  | failure (err : String)
deriving DecidableEq, Repr

/-- What one bridged write does, as seen by the awaiting caller: how
many blocking `produce` and `flush` calls it dispatched to the worker
pool, and whether the `await` completes normally or raises. -/
structure BridgeRun where
  produceCalls : Nat
  flushCalls : Nat
  outcome : Except String Unit

/-- `write_1` (lines 106-127): the worker issues one `produce` (whose
delivery callback resolves an asyncio future via
`loop.call_soon_threadsafe`) and one `flush` (which forces the callback
to run before the blocking call returns); the driver then awaits the
future, so a delivery error is raised to the caller. -/
def write1 (report : DeliveryReport) : BridgeRun :=
  { produceCalls := 1, flushCalls := 1,
    outcome :=
      match report with
      | .success => .ok ()
      | .failure e => .error e }

/-- The state of `write_2`'s `concurrent.futures.Future` after `flush`
returns: resolved by the delivery callback with the report's outcome. -/
def blockingWrite2Future (report : DeliveryReport) : Except String Unit :=
  match report with
  | .success => .ok ()
  | .failure e => .error e

/-- `write_2` (lines 129-148): the worker issues one `produce` and one
`flush`, and returns `asyncio.wrap_future(cfuture)`.  The driver only
awaits `run_in_executor`, whose value — the wrapped future — is
discarded without being awaited, so the caller completes normally even
when the callback stored a delivery error in `cfuture`. -/
def write2 (report : DeliveryReport) : BridgeRun :=
  let _wrapped := blockingWrite2Future report
  { produceCalls := 1, flushCalls := 1, outcome := .ok () }

/-! ## read_kafka.py: topic provisioning (lines 119-162) -/

/-- A `NewTopic` creation spec passed to `create_topics`. -/
structure NewTopic where
  name : String
  numPartitions : Nat
  replicationFactor : Nat
deriving DecidableEq, Repr

/-- `sorted(set(all_topics) - existing_topic_names)` (line 145): the
needed wire topic names that the `list_topics` metadata does not
already contain, deduplicated and sorted. -/
def newTopicNames (allTopics : List String) (existingTopicNames : List String) :
    List String :=
  ((allTopics.dedup).filter (fun t => !existingTopicNames.contains t)).mergeSort
    (fun a b => a ≤ b)

/-- The batched `create_topics` call (lines 146-156): one `NewTopic`
per missing name, with the configured partition count and replication
factor 1; no call is made (the list is empty) when nothing is
missing. -/
def createTopicsCall (allTopics : List String) (existingTopicNames : List String)
    (partitions : Nat) : List NewTopic :=
  (newTopicNames allTopics existingTopicNames).map
    (fun t => { name := t, numPartitions := partitions, replicationFactor := 1 })

/-! ## read_kafka.py: the consumer read loop (lines 81-222) -/

/-- The four post-processing strategies of `PostProcess`
(lines 29-33). -/
inductive PostProcess where
  | none
  | dataclass
  | pydantic
  | simpleNamespace
deriving DecidableEq, Repr

/-- The derived representation bound to `processed_data` by the
post-processing dispatch: a dataclass instance, a pydantic model, or a
`types.SimpleNamespace`, each built from the decoded field mapping
without modifying it (keyword-argument construction). -/
inductive Processed where
  | dataclassObj (fields : Dict)
  | pydanticObj (fields : Dict)
  | simpleNamespaceObj (fields : Dict)

/-- The runtime errors a consumer run can hit in the embedded
fragment: the per-message print reading `processed_data` before any
branch assigned it, the post-loop `dt` computation reading `t0` before
assignment, and a message whose decoded mapping lacks a float
`private_sndStamp`. -/
inductive RunErr where
  | unboundProcessedData
  | unboundT0
  | badSndStamp
deriving DecidableEq, Repr

/-- The consumer loop's mutable state: the message counter `i`, the
`delays` accumulator, the timing start `t0` (unassigned until the
`i == 1` branch runs), the last value bound to `processed_data`
(unassigned until a post-processing branch runs), and the decoded
mappings in arrival order (for stating frame properties). -/
structure ConsumerState where
  i : Nat
  delays : List ℚ
  t0 : Option ℚ
  processedVar : Option Processed
  dicts : List Dict

/-- The state at loop entry: `i = 0`, empty `delays`, `t0` and
`processed_data` unassigned. -/
def initialConsumerState : ConsumerState :=
  { i := 0, delays := [], t0 := Option.none, processedVar := Option.none,
    dicts := [] }

/-- The loop's break condition (line 207):
`args.number > 0 and i >= args.number`. -/
def exitCond (number : Int) (i : Nat) : Bool :=
  number > 0 && (i : Int) ≥ number

/-- The post-processing dispatch (lines 193-204): the value bound to
`processed_data` after one iteration, given its previous binding `old`
and the receive-stamped mapping `d1`; the `none` strategy leaves the
binding untouched. -/
def pvOf (post : PostProcess) (old : Option Processed) (d1 : Dict) :
    Option Processed :=
  match post with
  | .none => old
  | .dataclass => some (.dataclassObj d1)
  | .pydantic => some (.pydanticObj d1)
  | .simpleNamespace => some (.simpleNamespaceObj d1)

/-- How one loop iteration ended: fall through to the next read, break
out of the loop, or raise. -/
inductive StepRes where
  | next
  | broke
  | errored (e : RunErr)
deriving DecidableEq, Repr

/-- One iteration of the read loop (lines 183-213) on a decoded message
`msg` read at clock time `t`: increment `i`, stamp `private_rcvStamp`
with `t`, append `t - msg["private_sndStamp"]` to `delays`, run the
post-processing dispatch, print `processed_data` unless `--time` was
given (an `UnboundLocalError` when no branch ever assigned it), then
break when the count is reached; `t0` is assigned at `i == 1` only when
the loop does not break first.  Returns the state after the iteration
(also on error, since the list append and counter increment precede the
raise) and how the iteration ended. -/
def consumerStep (number : Int) (timeFlag : Bool) (post : PostProcess)
    (msg : Dict) (t : ℚ) (s : ConsumerState) : ConsumerState × StepRes :=
  let i' := s.i + 1
  let d1 := Dict.set msg "private_rcvStamp" (Value.vfloat t)
  match Dict.get d1 "private_sndStamp" with
  | some (Value.vfloat snd) =>
    let delays' := s.delays ++ [t - snd]
    let pv : Option Processed := pvOf post s.processedVar d1
    let s' : ConsumerState :=
      { i := i', delays := delays', t0 := s.t0, processedVar := pv,
        dicts := s.dicts ++ [d1] }
    if !timeFlag && pv.isNone then (s', .errored .unboundProcessedData)
    else if exitCond number i' then (s', .broke)
    else ({ s' with t0 := if i' = 1 then some t else s.t0 }, .next)
  | _ => ({ s with i := i', dicts := s.dicts ++ [d1] }, .errored .badSndStamp)

/-- How the `while True` loop over a finite trace ended: it broke, the
trace ran out with the loop still blocked in `poll`, or an iteration
raised. -/
inductive LoopExit where
  | broke
  | exhausted
  | errored (e : RunErr)
deriving DecidableEq, Repr

/-- The read loop over a finite trace of decoded messages with their
`time.time()` readings, threading the loop state. -/
def consumerLoop (number : Int) (timeFlag : Bool) (post : PostProcess) :
    List (Dict × ℚ) → ConsumerState → ConsumerState × LoopExit
  | [], s => (s, .exhausted)
  | (m, t) :: rest, s =>
    match consumerStep number timeFlag post m t s with
    | (s', .errored e) => (s', .errored e)
    | (s', .broke) => (s', .broke)
    | (s', .next) => consumerLoop number timeFlag post rest s'

/-- Outcome of a consumer run over a finite message trace: the loop
broke and the run completed with elapsed time `dt` (line 215), the
trace ended with the loop still reading, or a runtime error — each
carrying the state at that point. -/
inductive RunResult where
  | completed (s : ConsumerState) (dt : ℚ)
  | stillReading (s : ConsumerState)
  | failed (e : RunErr) (s : ConsumerState)

/-- `read_kafka.main`'s read loop plus the post-loop
`dt = time.time() - t0` (line 215, executed unconditionally): when the
loop breaks with `t0` never assigned, the read of `t0` raises
`UnboundLocalError`.  `tEnd` is the final `time.time()` reading. -/
def consumerRun (number : Int) (timeFlag : Bool) (post : PostProcess)
    (msgs : List (Dict × ℚ)) (tEnd : ℚ) : RunResult :=
  match consumerLoop number timeFlag post msgs initialConsumerState with
  | (s, .errored e) => .failed e s
  | (s, .exhausted) => .stillReading s
  | (s, .broke) =>
    match s.t0 with
    | Option.none => .failed .unboundT0 s
    | some t0 => .completed s (tEnd - t0)

/-- The argument check of lines 81-82: `--time` together with
`--number 1` raises a `ValueError`; `true` means the check passes. -/
def argCheck (number : Int) (timeFlag : Bool) : Bool :=
  !(timeFlag && number == 1)

/-- The `delays` accumulator visible in a run's outcome. -/
def RunResult.delays : RunResult → List ℚ
  | .completed s _ => s.delays
  | .stillReading s => s.delays
  | .failed _ s => s.delays

/-- The message counter `i` visible in a run's outcome. -/
def RunResult.count : RunResult → Nat
  | .completed s _ => s.i
  | .stillReading s => s.i
  | .failed _ s => s.i

/-- The decoded (and receive-stamped) field mappings visible in a run's
outcome. -/
def RunResult.dicts : RunResult → List Dict
  | .completed s _ => s.dicts
  | .stillReading s => s.dicts
  | .failed _ s => s.dicts

/-- Does a decoded message carry a float `private_sndStamp` (the shape
line 192's subtraction requires)? -/
def goodMsg (m : Dict) : Bool :=
  match Dict.get m "private_sndStamp" with
  | some (Value.vfloat _) => true
  | _ => false

/-- The `private_sndStamp` of a decoded message, defaulting to 0 when
absent (only used under a `goodMsg` hypothesis). -/
def sndStampOf (m : Dict) : ℚ :=
  match Dict.get m "private_sndStamp" with
  | some (Value.vfloat q) => q
  | _ => 0

/-! ## General lemmas about the embedded operations -/

theorem Dict.get_set_same (d : Dict) (k : String) (v : Value) :
    Dict.get (Dict.set d k v) k = some v := by
  induction d with
  | nil => simp [Dict.set, Dict.get]
  | cons p rest ih =>
    by_cases h : p.1 = k
    · simp [Dict.set, Dict.get, h]
    · simp [Dict.set, Dict.get, h, ih]

theorem Dict.get_set_ne (d : Dict) (k k' : String) (v : Value) (h : k' ≠ k) :
    Dict.get (Dict.set d k' v) k = Dict.get d k := by
  induction d with
  | nil => simp [Dict.set, Dict.get, h]
  | cons p rest ih =>
    by_cases hp : p.1 = k'
    · simp [Dict.set, Dict.get, hp, h]
    · simp only [Dict.set, hp, if_false]
      by_cases hk : p.1 = k
      · simp [Dict.get, hk]
      · simp [Dict.get, hk, ih]

theorem sendDataDict_eq (v : ValidationType) (d : Dict) : sendDataDict v d = d := by
  cases v <;> rfl

/-! ## Claim theorems -/

/-- C10: during synthetic-data derivation a field whose default is an
empty list is not rejected with the "Unexpected array type"
configuration error: the unguarded `value[0]` access raises
`IndexError` first. -/
theorem empty_list_default_hits_index_error (name : String) :
    deriveValue name (Value.vlist []) = .error DerivErr.indexError ∧
      DerivErr.isConfigError DerivErr.indexError = false ∧
      DerivErr.indexError ≠ DerivErr.unexpectedArrayType name := by
  refine ⟨rfl, rfl, ?_⟩
  intro h
  exact DerivErr.noConfusion h

/-- C10 witness: the empty-list behaviour at a concrete field name. -/
theorem empty_list_default_hits_index_error_witness :
    deriveValue "arr_field" (Value.vlist []) = .error DerivErr.indexError ∧
      DerivErr.isConfigError DerivErr.indexError = false ∧
      DerivErr.indexError ≠ DerivErr.unexpectedArrayType "arr_field" :=
  empty_list_default_hits_index_error "arr_field"

/-- C4: the two write bridges are not functionally equivalent on
delivery errors.  Both dispatch one blocking `produce` plus `flush` and
complete normally on success, but on a broker-reported delivery error
`write_1` raises it to the awaiting caller while `write_2` — whose
wrapped future is returned from the executor and never awaited —
completes normally, dropping the error. -/
theorem write_bridges_diverge_on_delivery_error :
    write1 DeliveryReport.success = write2 DeliveryReport.success ∧
      (write1 (DeliveryReport.failure "Local: message timed out")).produceCalls = 1 ∧
      (write2 (DeliveryReport.failure "Local: message timed out")).produceCalls = 1 ∧
      (write1 (DeliveryReport.failure "Local: message timed out")).flushCalls = 1 ∧
      (write2 (DeliveryReport.failure "Local: message timed out")).flushCalls = 1 ∧
      (write1 (DeliveryReport.failure "Local: message timed out")).outcome =
        .error "Local: message timed out" ∧
      (write2 (DeliveryReport.failure "Local: message timed out")).outcome = .ok () := by
  exact ⟨rfl, rfl, rfl, rfl, rfl, rfl, rfl⟩

/-- C3 counterexample: for an indexed component the stamping of one
iteration writes `private_index` after `private_sndStamp`, so
`private_sndStamp` is not the last field written before the
validation/serialize step. -/
theorem sndStamp_not_last_write_when_indexed :
    fieldsWrittenAfterSndStamp 0 0 true 5 = ["private_index"] ∧
      fieldsWrittenAfterSndStamp 0 0 true 5 ≠ [] := by
  constructor
  · rfl
  · intro h
    simp [fieldsWrittenAfterSndStamp, stampWriteList] at h

/-- C3 (amended): for a non-indexed component no field of the mapping
is written after `private_sndStamp` before validation/serialization;
for an indexed component exactly one field, `private_index`, is written
after it. -/
theorem sndStamp_last_write_unless_indexed (i : Nat) (t : ℚ) (index : Int) :
    fieldsWrittenAfterSndStamp i t false index = [] ∧
      fieldsWrittenAfterSndStamp i t true index = ["private_index"] := by
  constructor <;> rfl

/-- C2: the batched create-topics call covers exactly the needed wire
topic names minus the existing ones, each with the configured partition
count and replication factor 1; a name outside the needed set — in
particular the describe-config sentinel — is never created; and when
every needed topic already exists, no topic is created. -/
theorem provisioning_creates_exactly_missing (allTopics existingTopicNames : List String)
    (partitions : Nat) :
    (∀ nm : String, nm ∈ newTopicNames allTopics existingTopicNames ↔
        (nm ∈ allTopics ∧ nm ∉ existingTopicNames)) ∧
      (∀ nt ∈ createTopicsCall allTopics existingTopicNames partitions,
        nt.numPartitions = partitions ∧ nt.replicationFactor = 1 ∧
          nt.name ∈ allTopics ∧ nt.name ∉ existingTopicNames) ∧
      ("not_a_topic_name" ∉ allTopics →
        ∀ nt ∈ createTopicsCall allTopics existingTopicNames partitions,
          nt.name ≠ "not_a_topic_name") ∧
      ((∀ nm ∈ allTopics, nm ∈ existingTopicNames) →
        createTopicsCall allTopics existingTopicNames partitions = []) := by
  have hmem : ∀ nm : String, nm ∈ newTopicNames allTopics existingTopicNames ↔
      (nm ∈ allTopics ∧ nm ∉ existingTopicNames) := by
    intro nm
    unfold newTopicNames
    rw [(List.mergeSort_perm _ _).mem_iff, List.mem_filter, List.mem_dedup]
    simp
  have hspec : ∀ nt ∈ createTopicsCall allTopics existingTopicNames partitions,
      nt.numPartitions = partitions ∧ nt.replicationFactor = 1 ∧
        nt.name ∈ allTopics ∧ nt.name ∉ existingTopicNames := by
    intro nt hnt
    simp only [createTopicsCall, List.mem_map] at hnt
    obtain ⟨nm, hnm, rfl⟩ := hnt
    obtain ⟨h1, h2⟩ := (hmem nm).mp hnm
    exact ⟨rfl, rfl, h1, h2⟩
  refine ⟨hmem, hspec, ?_, ?_⟩
  · intro hsent nt hnt heq
    exact hsent (heq ▸ (hspec nt hnt).2.2.1)
  · intro hall
    have hfil : (allTopics.dedup).filter
        (fun t => !existingTopicNames.contains t) = [] := by
      simp only [List.filter_eq_nil_iff]
      intro a ha
      simp [hall a (List.mem_dedup.mp ha)]
    have hnames : newTopicNames allTopics existingTopicNames = [] := by
      unfold newTopicNames
      rw [hfil]
      exact List.mergeSort_nil
    simp [createTopicsCall, hnames]

/-- C2 witness: with needed topics `tel_a`, `evt_b` and only `evt_b`
existing, exactly `tel_a` is missing; and when the sole needed topic
already exists, nothing is created. -/
theorem provisioning_creates_exactly_missing_witness :
    ("tel_a" ∈ newTopicNames ["tel_a", "evt_b"] ["evt_b"] ∧
        "evt_b" ∉ newTopicNames ["tel_a", "evt_b"] ["evt_b"]) ∧
      createTopicsCall ["tel_a"] ["tel_a"] 3 = [] := by
  constructor
  · have h := (provisioning_creates_exactly_missing ["tel_a", "evt_b"] ["evt_b"] 3).1
    constructor
    · exact (h "tel_a").mpr (by simp)
    · intro hmem
      exact ((h "evt_b").mp hmem).2 (by simp)
  · exact (provisioning_creates_exactly_missing ["tel_a"] ["tel_a"] 3).2.2.2 (by simp)

/-! Helper lemmas for the producer loop (C1). -/

theorem stampMessage_eq (d : Dict) (i : Nat) (t : ℚ) (indexed : Bool) (index : Int) :
    stampMessage d i t indexed index =
      if indexed then
        Dict.set (Dict.set (Dict.set d "private_seqNum" (Value.vint (i + 1)))
          "private_sndStamp" (Value.vfloat t)) "private_index" (Value.vint index)
      else
        Dict.set (Dict.set d "private_seqNum" (Value.vint (i + 1)))
          "private_sndStamp" (Value.vfloat t) := by
  cases indexed <;> rfl

theorem stampMessage_get_seqNum (d : Dict) (i : Nat) (t : ℚ) (indexed : Bool)
    (index : Int) :
    Dict.get (stampMessage d i t indexed index) "private_seqNum" =
      some (Value.vint (i + 1)) := by
  cases indexed
  · show Dict.get (Dict.set (Dict.set d "private_seqNum" (Value.vint (i + 1)))
      "private_sndStamp" (Value.vfloat t)) "private_seqNum" = _
    rw [Dict.get_set_ne _ "private_seqNum" "private_sndStamp" _ (by decide),
      Dict.get_set_same]
  · show Dict.get (Dict.set (Dict.set (Dict.set d "private_seqNum"
      (Value.vint (i + 1))) "private_sndStamp" (Value.vfloat t)) "private_index"
      (Value.vint index)) "private_seqNum" = _
    rw [Dict.get_set_ne _ "private_seqNum" "private_index" _ (by decide),
      Dict.get_set_ne _ "private_seqNum" "private_sndStamp" _ (by decide),
      Dict.get_set_same]

theorem runIters_seqNums (v : ValidationType) (indexed : Bool) (index : Int)
    (times : Nat → ℚ) (idxs : List Nat) :
    ∀ d : Dict,
      (runIters v indexed index times idxs d).map
          (fun m => Dict.get m "private_seqNum") =
        idxs.map (fun i : Nat => some (Value.vint (i + 1))) := by
  induction idxs with
  | nil => intro d; rfl
  | cons i rest ih =>
    intro d
    simp only [runIters, List.map_cons]
    rw [sendDataDict_eq, stampMessage_get_seqNum, ih]

/-- C1: a producer run with message count `n ≥ 1` publishes exactly `n`
messages regardless of the validation strategy, and the sequence of
`private_seqNum` values carried by the published messages, in publish
order, is exactly 1, 2, …, n. -/
theorem producer_publishes_n_in_order (v : ValidationType) (indexed : Bool)
    (index : Int) (times : Nat → ℚ) (d : Dict) (n : Nat) (hn : 1 ≤ n) :
    (producerMessages v indexed index times d n).length = n ∧
      (producerMessages v indexed index times d n).map
          (fun m => Dict.get m "private_seqNum") =
        (List.range n).map (fun k : Nat => some (Value.vint (k + 1))) := by
  have h := runIters_seqNums v indexed index times (List.range n) d
  refine ⟨?_, h⟩
  have hlen := congrArg List.length h
  simpa [producerMessages] using hlen

/-! Helper lemmas for synthetic-data derivation (C6). -/

theorem deriveValue_ok_of_supported (name : String) (v : Value)
    (htame : tameListValue v = true) (hsup : supportedValue v = true) :
    ∃ v', deriveValue name v = .ok v' := by
  cases v with
  | vint n => exact ⟨_, rfl⟩
  | vfloat q => exact ⟨_, rfl⟩
  | vstr s => exact ⟨_, rfl⟩
  | vlist l =>
    cases l with
    | nil => simp [tameListValue] at htame
    | cons x xs =>
      have hx : numericValue x = true := by
        have : ((x :: xs).all numericValue) = true := hsup
        simp only [List.all_cons, Bool.and_eq_true] at this
        exact this.1
      cases x with
      | vint n2 => exact ⟨_, rfl⟩
      | vfloat q2 => exact ⟨_, rfl⟩
      | vstr s2 => simp [numericValue] at hx
      | vlist l2 => simp [numericValue] at hx
      | vmap m2 => simp [numericValue] at hx
      | vnone => simp [numericValue] at hx
  | vmap m => simp [supportedValue] at hsup
  | vnone => simp [supportedValue] at hsup

theorem deriveValue_err_of_unsupported (name : String) (v : Value)
    (htame : tameListValue v = true) (hsup : supportedValue v = false) :
    ∃ e, deriveValue name v = .error e ∧ DerivErr.isConfigError e = true := by
  cases v with
  | vint n => simp [supportedValue] at hsup
  | vfloat q => simp [supportedValue] at hsup
  | vstr s => simp [supportedValue] at hsup
  | vlist l =>
    cases l with
    | nil => simp [tameListValue] at htame
    | cons x xs =>
      have hall : ((x :: xs).all numericValue) = false := hsup
      have hx : numericValue x = false := by
        have : (!numericValue x || (x :: xs).all numericValue) = true := htame
        rw [hall, Bool.or_false, Bool.not_eq_true'] at this
        exact this
      cases x with
      | vint n2 => simp [numericValue] at hx
      | vfloat q2 => simp [numericValue] at hx
      | vstr s2 => exact ⟨_, rfl, rfl⟩
      | vlist l2 => exact ⟨_, rfl, rfl⟩
      | vmap m2 => exact ⟨_, rfl, rfl⟩
      | vnone => exact ⟨_, rfl, rfl⟩
  | vmap m => exact ⟨_, rfl, rfl⟩
  | vnone => exact ⟨_, rfl, rfl⟩

theorem deriveDataDict_err (defaults : Dict)
    (htame : ∀ p ∈ defaults, tameListValue p.2 = true)
    (hbad : ∃ p ∈ defaults, supportedValue p.2 = false) :
    ∃ e, deriveDataDict defaults = .error e ∧ DerivErr.isConfigError e = true := by
  induction defaults with
  | nil => simp at hbad
  | cons p rest ih =>
    obtain ⟨name, v⟩ := p
    by_cases hv : supportedValue v = true
    · obtain ⟨v', hv'⟩ :=
        deriveValue_ok_of_supported name v
          (htame (name, v) (List.mem_cons_self _ _)) hv
      have hbad' : ∃ q ∈ rest, supportedValue q.2 = false := by
        obtain ⟨q, hq, hqb⟩ := hbad
        rcases List.mem_cons.mp hq with rfl | hq'
        · rw [hqb] at hv; cases hv
        · exact ⟨q, hq', hqb⟩
      obtain ⟨e, he, hc⟩ :=
        ih (fun q hq => htame q (List.mem_cons_of_mem _ hq)) hbad'
      refine ⟨e, ?_, hc⟩
      simp [deriveDataDict, hv', he]
    · have hv' : supportedValue v = false := by
        rwa [Bool.not_eq_true] at hv
      obtain ⟨e, he, hc⟩ :=
        deriveValue_err_of_unsupported name v
          (htame (name, v) (List.mem_cons_self _ _)) hv'
      refine ⟨e, ?_, hc⟩
      simp [deriveDataDict, he]

/-- C6: when some field's default value is unsupported for
synthetic-data derivation (not an int/float/str scalar nor a list of
ints or floats — list defaults being nonempty and homogeneously typed
as the schema produces them), the producer run aborts with a
configuration error and performs no network step at all: no HTTP
session, registry client, schema registration, serializer, producer, or
publish. -/
theorem derivation_error_before_network (defaults : Dict) (v : ValidationType)
    (indexed : Bool) (index : Int) (times : Nat → ℚ) (n : Nat)
    (htame : ∀ p ∈ defaults, tameListValue p.2 = true)
    (hbad : ∃ p ∈ defaults, supportedValue p.2 = false) :
    (producerMain defaults v indexed index times n).events = [] ∧
      ∃ e, (producerMain defaults v indexed index times n).result = .error e ∧
        DerivErr.isConfigError e = true := by
  obtain ⟨e, he, hc⟩ := deriveDataDict_err defaults htame hbad
  refine ⟨?_, e, ?_, hc⟩
  · simp [producerMain, he]
  · simp [producerMain, he]

/-- C6 witness: a topic with an int field and a nested-mapping field is
rejected before any network event. -/
theorem derivation_error_before_network_witness :
    (producerMain [("scalar_ok", Value.vint 5), ("nested", Value.vmap [])]
        ValidationType.dataclass false 0 (fun _ => 0) 3).events = [] ∧
      ∃ e, (producerMain [("scalar_ok", Value.vint 5), ("nested", Value.vmap [])]
          ValidationType.dataclass false 0 (fun _ => 0) 3).result = .error e ∧
        DerivErr.isConfigError e = true :=
  derivation_error_before_network
    [("scalar_ok", Value.vint 5), ("nested", Value.vmap [])]
    ValidationType.dataclass false 0 (fun _ => 0) 3
    (by decide) ⟨("nested", Value.vmap []), by simp, rfl⟩

/-- C1 witness: a concrete run of two messages with the `none` strategy
publishes two messages carrying seqNums 1 and 2. -/
theorem producer_publishes_n_in_order_witness :
    (producerMessages ValidationType.none false 0 (fun _ => 0) [] 2).length = 2 ∧
      (producerMessages ValidationType.none false 0 (fun _ => 0) [] 2).map
          (fun m => Dict.get m "private_seqNum") =
        (List.range 2).map (fun k : Nat => some (Value.vint (k + 1))) :=
  producer_publishes_n_in_order ValidationType.none false 0 (fun _ => 0) [] 2
    (by decide)

/-! Helper lemmas for the consumer loop. -/

theorem get_sndStamp_after_rcv (m : Dict) (t : ℚ) :
    Dict.get (Dict.set m "private_rcvStamp" (Value.vfloat t)) "private_sndStamp" =
      Dict.get m "private_sndStamp" :=
  Dict.get_set_ne m "private_sndStamp" "private_rcvStamp" _ (by decide)

theorem get_sndStamp_eq (m : Dict) (hgood : goodMsg m = true) :
    Dict.get m "private_sndStamp" = some (Value.vfloat (sndStampOf m)) := by
  unfold goodMsg at hgood
  unfold sndStampOf
  cases h : Dict.get m "private_sndStamp" with
  | none => simp [h] at hgood
  | some v =>
    cases v with
    | vint n => simp [h] at hgood
    | vfloat q => simp [h]
    | vstr s2 => simp [h] at hgood
    | vlist l => simp [h] at hgood
    | vmap mm => simp [h] at hgood
    | vnone => simp [h] at hgood

/-- C9: running the consumer with count exactly 1 and the timing flag
unset passes the argument check (which rejects count 1 only together
with `--time`), yet the loop then breaks at the first message before
`t0` is ever assigned, and the unconditional `dt = time.time() - t0`
after the loop reads the unassigned `t0`, so the run fails after
successfully processing its one message (one delay sample taken). -/
theorem consumer_count_one_reads_unbound_t0 (msg : Dict) (t tEnd : ℚ)
    (post : PostProcess) (hgood : goodMsg msg = true)
    (hpost : post ≠ PostProcess.none) :
    argCheck 1 false = true ∧
      ∃ s, consumerRun 1 false post [(msg, t)] tEnd =
          RunResult.failed RunErr.unboundT0 s ∧
        s.i = 1 ∧ s.delays = [t - sndStampOf msg] ∧ s.t0 = Option.none := by
  refine ⟨rfl, ?_⟩
  have hget : Dict.get (Dict.set msg "private_rcvStamp" (Value.vfloat t))
      "private_sndStamp" = some (Value.vfloat (sndStampOf msg)) := by
    rw [get_sndStamp_after_rcv]
    exact get_sndStamp_eq msg hgood
  have hex : exitCond 1 1 = true := by decide
  cases post with
  | none => exact absurd rfl hpost
  | dataclass =>
    refine ⟨⟨1, [t - sndStampOf msg], Option.none,
      some (Processed.dataclassObj
        (Dict.set msg "private_rcvStamp" (Value.vfloat t))),
      [Dict.set msg "private_rcvStamp" (Value.vfloat t)]⟩,
      ?_, rfl, rfl, rfl⟩
    simp [consumerRun, consumerLoop, consumerStep, pvOf, hget, initialConsumerState, hex]
  | pydantic =>
    refine ⟨⟨1, [t - sndStampOf msg], Option.none,
      some (Processed.pydanticObj
        (Dict.set msg "private_rcvStamp" (Value.vfloat t))),
      [Dict.set msg "private_rcvStamp" (Value.vfloat t)]⟩,
      ?_, rfl, rfl, rfl⟩
    simp [consumerRun, consumerLoop, consumerStep, pvOf, hget, initialConsumerState, hex]
  | simpleNamespace =>
    refine ⟨⟨1, [t - sndStampOf msg], Option.none,
      some (Processed.simpleNamespaceObj
        (Dict.set msg "private_rcvStamp" (Value.vfloat t))),
      [Dict.set msg "private_rcvStamp" (Value.vfloat t)]⟩,
      ?_, rfl, rfl, rfl⟩
    simp [consumerRun, consumerLoop, consumerStep, pvOf, hget, initialConsumerState, hex]

theorem consumerStep_good_eq (number : Int) (timeFlag : Bool) (post : PostProcess)
    (m : Dict) (t : ℚ) (s : ConsumerState) (hgood : goodMsg m = true) :
    consumerStep number timeFlag post m t s =
      (let d1 := Dict.set m "private_rcvStamp" (Value.vfloat t)
      let pv := pvOf post s.processedVar d1
      let s' : ConsumerState :=
        ⟨s.i + 1, s.delays ++ [t - sndStampOf m], s.t0, pv, s.dicts ++ [d1]⟩
      if !timeFlag && pv.isNone then (s', StepRes.errored RunErr.unboundProcessedData)
      else if exitCond number (s.i + 1) then (s', StepRes.broke)
      else ({ s' with t0 := if s.i + 1 = 1 then some t else s.t0 }, StepRes.next)) := by
  have hget : Dict.get (Dict.set m "private_rcvStamp" (Value.vfloat t))
      "private_sndStamp" = some (Value.vfloat (sndStampOf m)) := by
    rw [get_sndStamp_after_rcv]
    exact get_sndStamp_eq m hgood
  simp only [consumerStep, hget]

theorem pvOf_isNone_false (post : PostProcess) (old : Option Processed) (d1 : Dict)
    (hpost : post ≠ PostProcess.none) : (pvOf post old d1).isNone = false := by
  cases post with
  | none => exact absurd rfl hpost
  | dataclass => rfl
  | pydantic => rfl
  | simpleNamespace => rfl

theorem consumerLoop_zero_exhausts (timeFlag : Bool) (post : PostProcess)
    (hsafe : timeFlag = true ∨ post ≠ PostProcess.none) :
    ∀ (msgs : List (Dict × ℚ)) (s : ConsumerState),
      (∀ p ∈ msgs, goodMsg p.1 = true) →
      ∃ s', consumerLoop 0 timeFlag post msgs s = (s', LoopExit.exhausted) ∧
        s'.i = s.i + msgs.length ∧
        s'.delays = s.delays ++ msgs.map (fun p => p.2 - sndStampOf p.1) ∧
        s'.dicts = s.dicts ++ msgs.map
          (fun p => Dict.set p.1 "private_rcvStamp" (Value.vfloat p.2)) := by
  intro msgs
  induction msgs with
  | nil =>
    intro s _
    exact ⟨s, rfl, by simp, by simp, by simp⟩
  | cons p rest ih =>
    intro s hgood
    obtain ⟨m, t⟩ := p
    have hm : goodMsg m = true := hgood (m, t) (List.mem_cons_self _ _)
    have hnoerr : (!timeFlag &&
        (pvOf post s.processedVar
          (Dict.set m "private_rcvStamp" (Value.vfloat t))).isNone) = false := by
      rcases hsafe with h | h
      · rw [h]; rfl
      · rw [pvOf_isNone_false _ _ _ h, Bool.and_false]
    have hexit : exitCond 0 (s.i + 1) = false := by simp [exitCond]
    obtain ⟨s', hloop, hi, hd, hdc⟩ :=
      ih _ (fun q hq => hgood q (List.mem_cons_of_mem _ hq))
    refine ⟨s', ?_, ?_, ?_, ?_⟩
    · simp only [consumerLoop, consumerStep_good_eq _ _ _ _ _ _ hm, hnoerr, hexit,
        Bool.false_eq_true, if_false]
      exact hloop
    · rw [hi]
      simp
      omega
    · rw [hd]
      simp
    · rw [hdc]
      simp

theorem consumerLoop_breaks_at (number : Int) (timeFlag : Bool) (post : PostProcess)
    (hsafe : timeFlag = true ∨ post ≠ PostProcess.none) :
    ∀ (msgs : List (Dict × ℚ)) (s : ConsumerState),
      (∀ p ∈ msgs, goodMsg p.1 = true) →
      (s.i : Int) < number → number ≤ (s.i : Int) + msgs.length →
      ∃ s', consumerLoop number timeFlag post msgs s = (s', LoopExit.broke) ∧
        (s'.i : Int) = number := by
  intro msgs
  induction msgs with
  | nil =>
    intro s _ hlt hle
    exfalso
    simp at hle
    omega
  | cons p rest ih =>
    intro s hgood hlt hle
    obtain ⟨m, t⟩ := p
    have hm : goodMsg m = true := hgood (m, t) (List.mem_cons_self _ _)
    have hnoerr : (!timeFlag &&
        (pvOf post s.processedVar
          (Dict.set m "private_rcvStamp" (Value.vfloat t))).isNone) = false := by
      rcases hsafe with h | h
      · rw [h]; rfl
      · rw [pvOf_isNone_false _ _ _ h, Bool.and_false]
    have hnum : (0 : Int) < number := by omega
    by_cases hge : number ≤ ((s.i : Int) + 1)
    · have hexit : exitCond number (s.i + 1) = true := by
        simp only [exitCond, Bool.and_eq_true, decide_eq_true_eq, ge_iff_le]
        constructor
        · omega
        · push_cast
          omega
      refine ⟨⟨s.i + 1, s.delays ++ [t - sndStampOf m], s.t0,
        pvOf post s.processedVar (Dict.set m "private_rcvStamp" (Value.vfloat t)),
        s.dicts ++ [Dict.set m "private_rcvStamp" (Value.vfloat t)]⟩, ?_, ?_⟩
      · simp [consumerLoop, consumerStep_good_eq _ _ _ _ _ _ hm, hnoerr, hexit]
      · show ((s.i + 1 : Nat) : Int) = number
        push_cast
        omega
    · have hexit : exitCond number (s.i + 1) = false := by
        simp only [exitCond, Bool.and_eq_false_iff]
        right
        simp only [decide_eq_false_iff_not, ge_iff_le, not_le]
        push_cast
        omega
      have hle' : number ≤ (s.i : Int) + rest.length + 1 := by
        simp only [List.length_cons] at hle
        push_cast at hle ⊢
        omega
      obtain ⟨s', hloop, hi⟩ :=
        ih ⟨s.i + 1, s.delays ++ [t - sndStampOf m],
            if s.i + 1 = 1 then some t else s.t0,
            pvOf post s.processedVar (Dict.set m "private_rcvStamp" (Value.vfloat t)),
            s.dicts ++ [Dict.set m "private_rcvStamp" (Value.vfloat t)]⟩
          (fun q hq => hgood q (List.mem_cons_of_mem _ hq))
          (by show ((s.i + 1 : Nat) : Int) < number; push_cast; omega)
          (by show number ≤ ((s.i + 1 : Nat) : Int) + (rest.length : Int)
              push_cast
              omega)
      refine ⟨s', ?_, hi⟩
      simp only [consumerLoop, consumerStep_good_eq _ _ _ _ _ _ hm, hnoerr, hexit,
        Bool.false_eq_true, if_false]
      exact hloop

theorem consumerStep_bad_eq (number : Int) (timeFlag : Bool) (post : PostProcess)
    (m : Dict) (t : ℚ) (s : ConsumerState) (hbad : goodMsg m = false) :
    consumerStep number timeFlag post m t s =
      (⟨s.i + 1, s.delays, s.t0, s.processedVar,
          s.dicts ++ [Dict.set m "private_rcvStamp" (Value.vfloat t)]⟩,
        StepRes.errored RunErr.badSndStamp) := by
  cases h : Dict.get m "private_sndStamp" with
  | none => simp only [consumerStep, get_sndStamp_after_rcv, h]
  | some v =>
    cases v with
    | vint n => simp only [consumerStep, get_sndStamp_after_rcv, h]
    | vfloat q =>
      unfold goodMsg at hbad
      rw [h] at hbad
      simp at hbad
    | vstr s2 => simp only [consumerStep, get_sndStamp_after_rcv, h]
    | vlist l => simp only [consumerStep, get_sndStamp_after_rcv, h]
    | vmap mm => simp only [consumerStep, get_sndStamp_after_rcv, h]
    | vnone => simp only [consumerStep, get_sndStamp_after_rcv, h]

theorem consumerLoop_post_indep (p1 p2 : PostProcess) (number : Int) :
    ∀ (msgs : List (Dict × ℚ)) (s1 s2 : ConsumerState),
      s1.i = s2.i → s1.delays = s2.delays → s1.t0 = s2.t0 → s1.dicts = s2.dicts →
      (consumerLoop number true p1 msgs s1).2 =
          (consumerLoop number true p2 msgs s2).2 ∧
        (consumerLoop number true p1 msgs s1).1.i =
          (consumerLoop number true p2 msgs s2).1.i ∧
        (consumerLoop number true p1 msgs s1).1.delays =
          (consumerLoop number true p2 msgs s2).1.delays ∧
        (consumerLoop number true p1 msgs s1).1.t0 =
          (consumerLoop number true p2 msgs s2).1.t0 ∧
        (consumerLoop number true p1 msgs s1).1.dicts =
          (consumerLoop number true p2 msgs s2).1.dicts := by
  intro msgs
  induction msgs with
  | nil =>
    intro s1 s2 hi hd ht hdc
    exact ⟨rfl, hi, hd, ht, hdc⟩
  | cons p rest ih =>
    intro s1 s2 hi hd ht hdc
    obtain ⟨m, t⟩ := p
    by_cases hm : goodMsg m = true
    · simp only [consumerLoop, consumerStep_good_eq _ _ _ _ _ _ hm,
        Bool.not_true, Bool.false_and, Bool.false_eq_true, if_false]
      rw [hi, hd, ht, hdc]
      cases hex : exitCond number (s2.i + 1) with
      | true => simp
      | false =>
        simp only [Bool.false_eq_true, if_false]
        exact ih _ _ rfl rfl rfl rfl
    · have hbad : goodMsg m = false := by
        rw [Bool.not_eq_true] at hm
        exact hm
      simp [consumerLoop, consumerStep_bad_eq _ _ _ _ _ _ hbad, hi, hd, ht, hdc]

/-- C5: the read loop's exit test is `number > 0 and i >= number`: with
a configured count of at least 1 (and enough traffic), the loop breaks
after processing exactly that many messages; with count 0 the exit
condition is false at every iteration, so the loop never breaks after
any fixed number of messages and consumes the whole trace. -/
theorem consumer_loop_stop_count (timeFlag : Bool) (post : PostProcess)
    (msgs : List (Dict × ℚ))
    (hgood : ∀ p ∈ msgs, goodMsg p.1 = true)
    (hsafe : timeFlag = true ∨ post ≠ PostProcess.none) :
    (∀ number : Int, 1 ≤ number → number ≤ (msgs.length : Int) →
        ∃ s, consumerLoop number timeFlag post msgs initialConsumerState =
            (s, LoopExit.broke) ∧ (s.i : Int) = number) ∧
      (∀ i : Nat, exitCond 0 i = false) ∧
      (∃ s, consumerLoop 0 timeFlag post msgs initialConsumerState =
          (s, LoopExit.exhausted) ∧ s.i = msgs.length) := by
  refine ⟨?_, ?_, ?_⟩
  · intro number h1 h2
    exact consumerLoop_breaks_at number timeFlag post hsafe msgs
      initialConsumerState hgood
      (by show ((0 : Nat) : Int) < number; push_cast; omega)
      (by show number ≤ ((0 : Nat) : Int) + (msgs.length : Int); push_cast; omega)
  · intro i
    rfl
  · obtain ⟨s', h, hi, _, _⟩ :=
      consumerLoop_zero_exhausts timeFlag post hsafe msgs initialConsumerState hgood
    refine ⟨s', h, ?_⟩
    rw [hi]
    show 0 + msgs.length = msgs.length
    omega

/-- C5 witness: with two good messages available, count 1 breaks after
exactly one message, and count 0 exhausts the trace without ever
breaking. -/
theorem consumer_loop_stop_count_witness :
    (∀ number : Int, 1 ≤ number →
        number ≤ (([([("private_sndStamp", Value.vfloat 0)], 1),
          ([("private_sndStamp", Value.vfloat 0)], 2)] :
            List (Dict × ℚ)).length : Int) →
        ∃ s, consumerLoop number true PostProcess.dataclass
            [([("private_sndStamp", Value.vfloat 0)], 1),
              ([("private_sndStamp", Value.vfloat 0)], 2)]
            initialConsumerState = (s, LoopExit.broke) ∧ (s.i : Int) = number) ∧
      (∀ i : Nat, exitCond 0 i = false) ∧
      (∃ s, consumerLoop 0 true PostProcess.dataclass
          [([("private_sndStamp", Value.vfloat 0)], 1),
            ([("private_sndStamp", Value.vfloat 0)], 2)]
          initialConsumerState = (s, LoopExit.exhausted) ∧
        s.i = ([([("private_sndStamp", Value.vfloat 0)], 1),
          ([("private_sndStamp", Value.vfloat 0)], 2)] :
            List (Dict × ℚ)).length) :=
  consumer_loop_stop_count true PostProcess.dataclass
    [([("private_sndStamp", Value.vfloat 0)], 1),
      ([("private_sndStamp", Value.vfloat 0)], 2)]
    (by decide) (Or.inl rfl)

/-- C7: over a run, one delay sample is appended per consumed message,
in order, and the sample for each message equals the clock reading
stamped into that message's `private_rcvStamp` minus the message's
`private_sndStamp`. -/
theorem consumer_delay_samples (post : PostProcess) (msgs : List (Dict × ℚ))
    (tEnd : ℚ) (hgood : ∀ p ∈ msgs, goodMsg p.1 = true) :
    (consumerRun 0 true post msgs tEnd).delays =
        msgs.map (fun p => p.2 - sndStampOf p.1) ∧
      ((consumerRun 0 true post msgs tEnd).dicts).map
          (fun d => Dict.get d "private_rcvStamp") =
        msgs.map (fun p => some (Value.vfloat p.2)) ∧
      (consumerRun 0 true post msgs tEnd).delays.length = msgs.length ∧
      (consumerRun 0 true post msgs tEnd).count = msgs.length := by
  obtain ⟨s', hloop, hi, hd, hdc⟩ :=
    consumerLoop_zero_exhausts true post (Or.inl rfl) msgs
      initialConsumerState hgood
  have hrun : consumerRun 0 true post msgs tEnd = RunResult.stillReading s' := by
    unfold consumerRun
    rw [hloop]
  rw [hrun]
  have hdel : (RunResult.stillReading s').delays =
      msgs.map (fun p => p.2 - sndStampOf p.1) := by
    show s'.delays = _
    rw [hd]
    show ([] : List ℚ) ++ _ = _
    simp
  refine ⟨hdel, ?_, ?_, ?_⟩
  · show (s'.dicts).map _ = _
    rw [hdc]
    show (([] : List Dict) ++ _).map _ = _
    rw [List.nil_append, List.map_map]
    refine List.map_congr_left ?_
    intro p _
    exact Dict.get_set_same p.1 "private_rcvStamp" (Value.vfloat p.2)
  · rw [hdel]
    simp
  · show s'.i = msgs.length
    rw [hi]
    show 0 + msgs.length = msgs.length
    omega

/-- C7 witness: two concrete messages yield exactly the two expected
delay samples and receive stamps. -/
theorem consumer_delay_samples_witness :
    (consumerRun 0 true PostProcess.dataclass
        [([("private_sndStamp", Value.vfloat 0)], 1),
          ([("private_sndStamp", Value.vfloat (1 / 2))], 2)] 5).delays =
        ([([("private_sndStamp", Value.vfloat 0)], 1),
          ([("private_sndStamp", Value.vfloat (1 / 2))], 2)] :
            List (Dict × ℚ)).map (fun p => p.2 - sndStampOf p.1) ∧
      ((consumerRun 0 true PostProcess.dataclass
          [([("private_sndStamp", Value.vfloat 0)], 1),
            ([("private_sndStamp", Value.vfloat (1 / 2))], 2)] 5).dicts).map
          (fun d => Dict.get d "private_rcvStamp") =
        ([([("private_sndStamp", Value.vfloat 0)], 1),
          ([("private_sndStamp", Value.vfloat (1 / 2))], 2)] :
            List (Dict × ℚ)).map (fun p => some (Value.vfloat p.2)) ∧
      (consumerRun 0 true PostProcess.dataclass
          [([("private_sndStamp", Value.vfloat 0)], 1),
            ([("private_sndStamp", Value.vfloat (1 / 2))], 2)] 5).delays.length =
        ([([("private_sndStamp", Value.vfloat 0)], 1),
          ([("private_sndStamp", Value.vfloat (1 / 2))], 2)] :
            List (Dict × ℚ)).length ∧
      (consumerRun 0 true PostProcess.dataclass
          [([("private_sndStamp", Value.vfloat 0)], 1),
            ([("private_sndStamp", Value.vfloat (1 / 2))], 2)] 5).count =
        ([([("private_sndStamp", Value.vfloat 0)], 1),
          ([("private_sndStamp", Value.vfloat (1 / 2))], 2)] :
            List (Dict × ℚ)).length :=
  consumer_delay_samples PostProcess.dataclass
    [([("private_sndStamp", Value.vfloat 0)], 1),
      ([("private_sndStamp", Value.vfloat (1 / 2))], 2)] 5 (by decide)

/-- C8 counterexample: with the timing flag unset the per-message print
runs, and under the `none` strategy it reads the never-assigned
`processed_data` at the first message, aborting the run; the
`dataclass` strategy processes both messages, so the accumulated delay
sequences of the two strategies differ on the same received trace. -/
theorem postprocess_none_not_interchangeable :
    (consumerRun 0 false PostProcess.none
        [([("private_sndStamp", Value.vfloat 0)], 1),
          ([("private_sndStamp", Value.vfloat 0)], 2)] 5).delays ≠
      (consumerRun 0 false PostProcess.dataclass
        [([("private_sndStamp", Value.vfloat 0)], 1),
          ([("private_sndStamp", Value.vfloat 0)], 2)] 5).delays := by
  intro h
  have h1 : (consumerRun 0 false PostProcess.none
      [([("private_sndStamp", Value.vfloat 0)], 1),
        ([("private_sndStamp", Value.vfloat 0)], 2)] 5).delays.length = 1 := rfl
  have h2 : (consumerRun 0 false PostProcess.dataclass
      [([("private_sndStamp", Value.vfloat 0)], 1),
        ([("private_sndStamp", Value.vfloat 0)], 2)] 5).delays.length = 2 := rfl
  have hlen := congrArg List.length h
  rw [h1, h2] at hlen
  exact absurd hlen (by decide)

/-- C8 (amended): with per-message printing disabled (the timing flag
set), switching among the four post-processing strategies changes
neither the receive-stamped field mappings, nor the accumulated delay
sequence, nor the number of messages processed — the strategies differ
only in the derived representation bound to `processed_data`.  (With
printing enabled the `none` strategy instead fails at the first
message's print, which reads the never-assigned `processed_data`.) -/
theorem postprocess_strategies_frame (p1 p2 : PostProcess) (number : Int)
    (msgs : List (Dict × ℚ)) (tEnd : ℚ) :
    (consumerRun number true p1 msgs tEnd).delays =
        (consumerRun number true p2 msgs tEnd).delays ∧
      (consumerRun number true p1 msgs tEnd).dicts =
        (consumerRun number true p2 msgs tEnd).dicts ∧
      (consumerRun number true p1 msgs tEnd).count =
        (consumerRun number true p2 msgs tEnd).count := by
  obtain ⟨htag, hi, hd, ht, hdc⟩ :=
    consumerLoop_post_indep p1 p2 number msgs
      initialConsumerState initialConsumerState rfl rfl rfl rfl
  unfold consumerRun
  cases hl1 : consumerLoop number true p1 msgs initialConsumerState with
  | mk s1 e1 =>
  cases hl2 : consumerLoop number true p2 msgs initialConsumerState with
  | mk s2 e2 =>
  rw [hl1, hl2] at htag hi hd ht hdc
  simp only at htag hi hd ht hdc
  subst htag
  cases e1 with
  | exhausted => exact ⟨hd, hdc, hi⟩
  | errored e => exact ⟨hd, hdc, hi⟩
  | broke =>
    refine ⟨?_, ?_, ?_⟩
    · show (match s1.t0 with
          | Option.none => RunResult.failed RunErr.unboundT0 s1
          | some t0 => RunResult.completed s1 (tEnd - t0)).delays =
        (match s2.t0 with
          | Option.none => RunResult.failed RunErr.unboundT0 s2
          | some t0 => RunResult.completed s2 (tEnd - t0)).delays
      rw [ht]
      cases h0 : s2.t0 with
      | none => exact hd
      | some t0v => exact hd
    · show (match s1.t0 with
          | Option.none => RunResult.failed RunErr.unboundT0 s1
          | some t0 => RunResult.completed s1 (tEnd - t0)).dicts =
        (match s2.t0 with
          | Option.none => RunResult.failed RunErr.unboundT0 s2
          | some t0 => RunResult.completed s2 (tEnd - t0)).dicts
      rw [ht]
      cases h0 : s2.t0 with
      | none => exact hdc
      | some t0v => exact hdc
    · show (match s1.t0 with
          | Option.none => RunResult.failed RunErr.unboundT0 s1
          | some t0 => RunResult.completed s1 (tEnd - t0)).count =
        (match s2.t0 with
          | Option.none => RunResult.failed RunErr.unboundT0 s2
          | some t0 => RunResult.completed s2 (tEnd - t0)).count
      rw [ht]
      cases h0 : s2.t0 with
      | none => exact hi
      | some t0v => exact hi

/-- C9 witness: a concrete single-message run with count 1, no timing
flag, and the default dataclass post-processing fails reading the
unassigned `t0` after processing its one message. -/
theorem consumer_count_one_reads_unbound_t0_witness :
    argCheck 1 false = true ∧
      ∃ s, consumerRun 1 false PostProcess.dataclass
          [([("private_sndStamp", Value.vfloat 0)], 1)] 2 =
          RunResult.failed RunErr.unboundT0 s ∧
        s.i = 1 ∧
        s.delays = [1 - sndStampOf [("private_sndStamp", Value.vfloat 0)]] ∧
        s.t0 = Option.none :=
  consumer_count_one_reads_unbound_t0 [("private_sndStamp", Value.vfloat 0)] 1 2
    PostProcess.dataclass (by decide) (by decide)

end KafkaPrototype
